import Mathlib

/- Verification of make_standalone_toolchains.py: a shallow embedding of the
toolchain-assembly pipeline and of the generated compiler wrapper (the C
program in the CLANG_WRAPPER template), together with theorems settling the
behavioural claims about them. -/

namespace StandaloneToolchains

/- String constants appearing in the source.  They are bound to names here so
that every later use is by name. -/

def settingsName : String := "SDKSettings.plist"

def sysrootVarSuffix : String := "_SDK_SYSROOT"

def deployVarSuffix : String := "_DEPLOYMENT_TARGET"

def targetFlag : String := "-target"

def isysrootFlag : String := "-isysroot"

def archFlag : String := "-arch"

def mFlagHead : String := "-m"

def versionMinMid : String := "-version-min="

def linkerVersionFlag : String := "-mlinker-version=450.3"

def appleDarwinSuffix : String := "-apple-darwin11"

def sdkRelPath : String := "/../sdk"

/-- Supported architectures (the ARCHS list of the script). -/
def ARCHS : List String := ["x86", "x86_64", "arm", "arm64"]

/-- ASCII upper-casing of one character, as Python str.upper acts on the
ASCII platform names. -/
def charUpper (c : Char) : Char :=
  if ('a' ≤ c ∧ c ≤ 'z') then Char.ofNat (c.toNat - 32) else c

def strUpper (s : String) : String := String.mk (s.data.map charUpper)

/-- ASCII lower-casing of one character, as Python str.lower acts on the
ASCII platform names. -/
def charLower (c : Char) : Char :=
  if ('A' ≤ c ∧ c ≤ 'Z') then Char.ofNat (c.toNat + 32) else c

def strLower (s : String) : String := String.mk (s.data.map charLower)

/-- Compile-time substitution values of the CLANG_WRAPPER template: the five
values the Python code passes to CLANG_WRAPPER.format, with target_triple and
the upper/lower platform spellings derived exactly as the script derives
them. -/
structure WrapperParams where
  compiler : String
  target_triple : String
  arch : String
  platform_high : String
  platform_low : String
  default_min_version : String

/-- Rendering of the template as done in create_apple_toolchain:
target_triple is arch followed by "-apple-darwin11", platform_high and
platform_low are the upper- and lower-cased SDK platform name, and
default_min_version is the resolved minimum version. -/
def renderParams (arch clang platform minVersion : String) : WrapperParams :=
  { compiler := clang
    target_triple := arch ++ appleDarwinSuffix
    arch := arch
    platform_high := strUpper platform
    platform_low := strLower platform
    default_min_version := minVersion }

/-- The wrapper's fromenv helper: getenv(name), falling back to the default
when the variable is unset.  The process environment is modelled as a partial
map from names to values. -/
def fromenv (env : String → Option String) (name default_val : String) : String :=
  (env name).getD default_val

/-- The strrchr-based truncation in set_compiler_path: everything before the
last slash of the executable path; the whole string when it has no slash
(then the sep pointer is NULL and nothing is truncated). -/
def dirOfList (l : List Char) : List Char :=
  if l.contains ('/') then ((l.reverse.dropWhile (fun c => c ≠ '/')).drop 1).reverse else l

def dirOf (s : String) : String := String.mk (dirOfList s.data)

/-- Runtime value of the wrapper's sdk_path buffer: the PLATFORM_SDK_SYSROOT
environment variable when set, else compiler_path followed by "/../sdk". -/
def sdk_path (p : WrapperParams) (env : String → Option String) (compilerPath : String) : String :=
  fromenv env (p.platform_high ++ sysrootVarSuffix) (compilerPath ++ sdkRelPath)

/-- Runtime value of the wrapper's min_os_version buffer: the fixed prefix
written by strcpy, with the PLATFORM_DEPLOYMENT_TARGET variable (or the
compile-time default) appended right after it by fromenv. -/
def min_os_version (p : WrapperParams) (env : String → Option String) : String :=
  (mFlagHead ++ p.platform_low ++ versionMinMid) ++
    fromenv env (p.platform_high ++ deployVarSuffix) p.default_min_version

/-- The default_args array of the wrapper's main, in source order. -/
def default_args (p : WrapperParams) (env : String → Option String) (compilerPath : String) : List String :=
  [p.compiler, targetFlag, p.target_triple, isysrootFlag, sdk_path p env compilerPath,
   archFlag, p.arch, min_os_version p env, linkerVersionFlag]

/-- The string arguments handed to execvp: the nine default_args followed by
the wrapper's own argv with its program name dropped. -/
def exec_args (p : WrapperParams) (env : String → Option String) (compilerPath : String)
    (argv : List String) : List String :=
  default_args p env compilerPath ++ argv.drop 1

/-- Sequential array writes: setSeq arr i vs stores the values vs at the
consecutive slots i, i+1, ... of arr, as the wrapper's two copy loops do. -/
def setSeq : List (Option String) → Nat → List String → List (Option String)
  | arr, _, [] => arr
  | arr, i, v :: vs => setSeq (arr.set i (some v)) (i + 1) vs

/-- Number of pointer slots obtained from
calloc(1, sizeof(char pointer) times argc plus sizeof(default_args)):
argc + 9 slots, all zero-initialised. -/
def callocSlots (argc : Nat) : Nat := argc + 9

/-- The args array as passed to execvp: a zeroed array of callocSlots slots,
with default_args copied to slots 0..8 by the first loop and argv[1..argc-1]
copied to the consecutive slots from 9 on by the second loop (the loop index
i has the value 9 there).  A none entry models a NULL pointer. -/
def wrapperExecArr (p : WrapperParams) (env : String → Option String) (compilerPath : String)
    (argv : List String) : List (Option String) :=
  setSeq (setSeq (List.replicate (callocSlots argv.length) none) 0 (default_args p env compilerPath))
    9 (argv.drop 1)

/-- Outcome of the execvp call: on success the process image is replaced and
main never continues; on failure execvp returns and errno is set. -/
inductive ExecOutcome where
  | replaced : ExecOutcome
  | failed : Nat → ExecOutcome

/-- Observable result of running the wrapper's main: either the process image
was replaced with the given argument array, or the process exited with the
given status after writing the given text to stderr. -/
inductive MainResult where
  | execed : List (Option String) → MainResult
  | exited : Nat → String → MainResult
deriving DecidableEq

def errAllocMsg : String := "failed to alloc args\n"

def errSelfPathMsg : String := "failed to set compiler path\n"

def errExecPre : String := "error: compiler invoaction failed ("

def errExecMid : String := " - "

def errExecPost : String := ")\n"

/-- The diagnostic printed when execvp fails, with errno and strerror(errno)
interpolated as in the fprintf call. -/
def execFailMsg (errno : Nat) (strerror : Nat → String) : String :=
  errExecPre ++ toString errno ++ errExecMid ++ strerror errno ++ errExecPost

/-- The wrapper's main.  callocOk tells whether calloc succeeded, selfExe is
the readlink("/proc/self/exe") result (none when readlink fails), execOut is
the behaviour of execvp, and strerror interprets errno values.  On exec
failure main prints the diagnostic and then reaches its closing brace with no
return statement, which under C99 semantics returns 0 from main. -/
def wrapperMain (p : WrapperParams) (env : String → Option String) (selfExe : Option String)
    (callocOk : Bool) (execOut : ExecOutcome) (strerror : Nat → String)
    (argv : List String) : MainResult :=
  if !callocOk then MainResult.exited 1 errAllocMsg
  else
    match selfExe with
    | none => MainResult.exited 1 errSelfPathMsg
    | some exe =>
      let compilerPath := dirOf exe
      match execOut with
      | ExecOutcome.replaced => MainResult.execed (wrapperExecArr p env compilerPath argv)
      | ExecOutcome.failed errno => MainResult.exited 0 (execFailMsg errno strerror)

/- Concrete fixtures used by witnesses. -/

def envNone : String → Option String := fun _ => none

def enoentText : String := "No such file or directory"

def unknownErrText : String := "unknown error"

def strerrorW : Nat → String := fun n => if n == 2 then enoentText else unknownErrText

def platformIphoneos : String := "iphoneos"

def platformMacosx : String := "macosx"

def iosMinDefault : String := "4.0"

def archArm64 : String := "arm64"

def clangName : String := "clang"

def pW : WrapperParams := renderParams archArm64 clangName platformIphoneos iosMinDefault

def selfExeW : String := "/opt/tc/bin/arm64-apple-darwin11-clang"

def argvW : List String := ["arm64-apple-darwin11-clang", "-c", "main.c"]

def iosSysVarW : String := "IPHONEOS_SDK_SYSROOT"

def iosDepVarW : String := "IPHONEOS_DEPLOYMENT_TARGET"

def sysValW : String := "/custom/sdk"

def depValW : String := "9.3"

def envBothW : String → Option String := fun n =>
  if n == iosSysVarW then some sysValW else if n == iosDepVarW then some depValW else none

/- The Process Runner (def run of the script).  subprocess.Popen is given
PIPE for stdin unless the stdin argument is literally None, PIPE for stdout
and stderr exactly when the corresponding flag is set, and
process.communicate returns, per stream, the captured bytes when that stream
was opened as a PIPE and Python None otherwise.  Bytes are modelled as lists
of naturals and a stream's returned value as an Option of those. -/

/-- Externally observable behaviour of the launched child process. -/
structure ChildBehavior where
  rc : Int
  outData : List Nat
  errData : List Nat

/-- The run function's stdin argument: Python None, the False default, or a
byte buffer. -/
inductive StdinArg where
  | noneA : StdinArg
  | falseA : StdinArg
  | dataA : List Nat → StdinArg

inductive StreamMode where
  | inherit : StreamMode
  | pipe : StreamMode

/-- Popen stream argument for stdout/stderr: PIPE when the flag is set,
inherited (Python None) otherwise. -/
def popenCaptured (flag : Bool) : StreamMode :=
  if flag then StreamMode.pipe else StreamMode.inherit

/-- Popen stream argument for stdin: None exactly when the run argument is
literally None (the source tests stdin is None), PIPE otherwise. -/
def popenStdinMode (a : StdinArg) : StreamMode :=
  match a with
  | StdinArg.noneA => StreamMode.inherit
  | StdinArg.falseA => StreamMode.pipe
  | StdinArg.dataA _ => StreamMode.pipe

/-- What communicate returns for one output stream: the captured data for a
PIPE stream, Python None for an inherited stream. -/
def communicateStream (m : StreamMode) (data : List Nat) : Option (List Nat) :=
  match m with
  | StreamMode.pipe => some data
  | StreamMode.inherit => none

/-- The run function: launches the child and returns the triple
(returncode, stdout value, stderr value) exactly as built from Popen and
communicate. -/
def run (_stdinA : StdinArg) (pipe_stdout pipe_stderr : Bool) (child : ChildBehavior) :
    Int × Option (List Nat) × Option (List Nat) :=
  (child.rc,
   communicateStream (popenCaptured pipe_stdout) child.outData,
   communicateStream (popenCaptured pipe_stderr) child.errData)

def childW : ChildBehavior := { rc := 3, outData := [104, 105], errData := [101] }

/- The Scoped Directory Context (def at of the script, a contextmanager).
The process-wide state is the current working directory plus the set of
directories that exist; a body is a state transformer that also may produce
an error (a raised exception). -/

structure DirState where
  cwd : String
  dirs : List String

def errChdir : String := "chdir failed"

/-- Entry state of the scope: the state after the optional mkdir (os.mkdir
when create is set and the target is not yet a directory) and the chdir into
the target directory. -/
def atEntry (d : String) (create : Bool) (s : DirState) : DirState :=
  { (if create ∧ ¬ d ∈ s.dirs then { s with dirs := d :: s.dirs } else s) with cwd := d }

/-- The at context manager: record the current directory, optionally create
the target, chdir into it (an os.chdir to a non-existent directory raises,
with the mkdir already persisted and nothing to restore), run the body, and
in the finally clause chdir back to the recorded directory; an error raised
by the body propagates after the restoration, and a failing restoration
chdir raises in its place. -/
def atCtx (d : String) (create : Bool) (body : DirState → DirState × Option String)
    (s : DirState) : DirState × Option String :=
  if d ∈ (atEntry d create s).dirs then
    if s.cwd ∈ (body (atEntry d create s)).1.dirs then
      ({ (body (atEntry d create s)).1 with cwd := s.cwd }, (body (atEntry d create s)).2)
    else ((body (atEntry d create s)).1, some errChdir)
  else (if create ∧ ¬ d ∈ s.dirs then { s with dirs := d :: s.dirs } else s, some errChdir)

def rootDirW : String := "/work"

def subDirAW : String := "/work/a"

def subDirBW : String := "/work/b"

def errBoom : String := "boom"

def dirStateW : DirState := { cwd := rootDirW, dirs := [rootDirW, subDirAW, subDirBW] }

/-- Witness body for the scope theorems: changes the working directory and
raises, leaving the directory set unchanged. -/
def bodyW : DirState → DirState × Option String :=
  fun t => ({ t with cwd := subDirBW }, some errBoom)

/- The SDK Normalizer (def expand_sdk of the script).  The SDK tree is a
directory tree; expand_sdk operates on the list of entries of the SDK root,
returning the possibly changed entry list together with an optional raised
error. -/

inductive FSTree where
  | file : FSTree
  | dir : List (String × FSTree) → FSTree

abbrev Entries := List (String × FSTree)

def childrenOf : FSTree → Entries
  | FSTree.file => []
  | FSTree.dir es => es

def isDirE : FSTree → Bool
  | FSTree.file => false
  | FSTree.dir _ => true

/-- os.listdir of a directory given by its entries. -/
def entryNames (es : Entries) : List String := es.map (fun e => e.1)

/-- The check that the canonical settings file name is in a directory
listing. -/
def hasSettingsName (es : Entries) : Bool := (entryNames es).contains settingsName

def lookupEntry (es : Entries) (n : String) : Option FSTree :=
  match es.find? (fun e => e.1 == n) with
  | some e => some e.2
  | none => none

def eraseEntry (es : Entries) (n : String) : Entries :=
  es.filter (fun e => !(e.1 == n))

def replaceEntry (es : Entries) (n : String) (t : FSTree) : Entries :=
  es.map (fun e => if e.1 == n then (e.1, t) else e)

/-- The sdk_items list comprehension: the immediate subdirectories of the SDK
root whose own listing contains the settings file name. -/
def sdkCandidates (es : Entries) : Entries :=
  es.filter (fun e => isDirE e.2 && hasSettingsName (childrenOf e.2))

def dquote : String := "\""

def errNotFoundPre : String := "An apple SDK was not found in "

def errAmbiguousPre : String := "Multiple apple SDK candidates found in "

def errNotFound (sdk : String) : String := errNotFoundPre ++ dquote ++ sdk ++ dquote

def errAmbiguous (sdk : String) : String := errAmbiguousPre ++ dquote ++ sdk ++ dquote

def errMoveExists : String := "Destination path already exists"

def errNotADir : String := "Not a directory"

def errSrcMissing : String := "No such file or directory (move source)"

def errRmdir : String := "Directory not empty"

/-- One shutil.move of the item named n from the candidate subdirectory
(named subN) up into the SDK root es (which still lists that subdirectory).
Moving onto an existing directory entry places the item inside it and fails
when the inner name already exists (in particular moving onto the
subdirectory itself always fails, since the inner path is the source);
moving a file onto an existing file replaces it via os.rename; moving a
directory onto an existing file fails; otherwise the item is added to the
root. -/
def moveOne (es : Entries) (subN n : String) : Except String Entries :=
  match lookupEntry es subN with
  | some (FSTree.dir subEs) =>
    match lookupEntry subEs n with
    | some it =>
      if n == subN then Except.error errMoveExists
      else
        match lookupEntry es n with
        | some (FSTree.dir dEs) =>
          if (entryNames dEs).contains n then Except.error errMoveExists
          else Except.ok (replaceEntry
            (replaceEntry es subN (FSTree.dir (eraseEntry subEs n))) n
            (FSTree.dir (dEs ++ [(n, it)])))
        | some FSTree.file =>
          match it with
          | FSTree.file => Except.ok (replaceEntry
              (replaceEntry es subN (FSTree.dir (eraseEntry subEs n))) n FSTree.file)
          | FSTree.dir _ => Except.error errNotADir
        | none => Except.ok (replaceEntry es subN (FSTree.dir (eraseEntry subEs n)) ++ [(n, it)])
    | none => Except.error errSrcMissing
  | _ => Except.error errSrcMissing

/-- The move loop over the snapshot of the subdirectory's listing; a raised
move error stops the loop, leaving the entries as mutated so far. -/
def moveLoop (subN : String) : List String → Entries → Entries × Option String
  | [], es => (es, none)
  | n :: ns, es =>
    match moveOne es subN n with
    | Except.error e => (es, some e)
    | Except.ok es1 => moveLoop subN ns es1

/-- os.rmdir of the now-empty candidate subdirectory. -/
def rmdirSub (es : Entries) (subN : String) : Entries × Option String :=
  match lookupEntry es subN with
  | some (FSTree.dir []) => (eraseEntry es subN, none)
  | _ => (es, some errRmdir)

/-- Moving the single candidate's contents up into the SDK root and removing
the emptied subdirectory. -/
def moveUp (es : Entries) (sub : String × FSTree) : Entries × Option String :=
  match moveLoop sub.1 (entryNames (childrenOf sub.2)) es with
  | (es1, some e) => (es1, some e)
  | (es1, none) => rmdirSub es1 sub.1

/-- The expand_sdk normalizer on the SDK root's entries: an early no-op
return when the settings file name is already listed at top level, the
not-found and ambiguity errors (raised before any mutation), and the move-up
of the unique candidate. -/
def expand_sdk (sdk : String) (es : Entries) : Entries × Option String :=
  if hasSettingsName es then (es, none)
  else
    match sdkCandidates es with
    | [] => (es, some (errNotFound sdk))
    | [e] => moveUp es e
    | _ :: _ :: _ => (es, some (errAmbiguous sdk))

/-- Applying expand_sdk and, when it did not raise, applying it again to the
resulting tree. -/
def expand_twice (sdk : String) (es : Entries) : Entries × Option String :=
  match expand_sdk sdk es with
  | (es1, some e) => (es1, some e)
  | (es1, none) => expand_sdk sdk es1

def sdkPathW : String := "/install/sdk"

def settingsEntryW : Entries := [(settingsName, FSTree.file)]

def nameAW : String := "alpha"

def nameBW : String := "beta"

/-- A tree with no settings file and no candidate subdirectory. -/
def esZeroW : Entries := [(nameAW, FSTree.file)]

/-- A tree with two sibling candidate subdirectories. -/
def esTwoW : Entries :=
  [(nameAW, FSTree.dir settingsEntryW), (nameBW, FSTree.dir settingsEntryW)]

/- The Toolchain Orchestrator (def create_apple_toolchain of the script),
modelled as a straight-line pipeline over the outcomes of its external
effects.  Each filesystem or process effect is recorded as a Step when it is
started; a raised exception stops the pipeline, and the INSTALLPREFIX
environment-variable mutation of the apple-libtapi stage is tracked
explicitly. -/

/-- Outcome of one external process launch: the launch itself raised (OSError
from Popen, message carried), or the child ran and returned this exit
status. -/
inductive ProcOut where
  | raised : String → ProcOut
  | returned : Int → ProcOut
deriving DecidableEq

/-- An effect of the orchestrator, recorded when the corresponding source
statement starts executing. -/
inductive Step where
  | rmtreeInstall | mkdirInstall | mkdirTmp | extractSdk | expandSdkS | inspectSdk
  | mkdirBin | compileWrap | writeWrap | buildLdid | buildLibtapi
  | configureCctools | makeCctools | makeInstallCctools | smokeTest
deriving DecidableEq

/-- Outcomes of the orchestrator's fallible sub-operations, in pipeline
order: extract, expand_sdk and compile_c carry a raised message on failure,
get_sdk_info yields the platform string, and the six process launches are
ProcOut values (for make-based steps a nonzero status is turned into a
raised ValueError by the make helper itself, modelled at the use site). -/
structure Outcomes where
  extractR : Option String
  expandR : Option String
  inspectR : Except String String
  compileR : Option String
  ldidR : ProcOut
  libtapiR : ProcOut
  configureR : ProcOut
  makeR : ProcOut
  makeInstR : ProcOut
  smokeR : ProcOut

/-- Pipeline result: the effects started, whether INSTALLPREFIX is present in
os.environ when the pipeline ends, and the raised error if any. -/
structure OrchResult where
  steps : List Step
  envIP : Bool
  result : Option String
deriving DecidableEq

def errInstallExists : String := "installation dir already exists (use -f to force)"

def errLdidMake : String := "failed to make"

def errLibtapiMake : String := "failed to make apple-libtapi"

def errConfigureCctools : String := "failed to configure cctools"

def errCctoolsMake : String := "failed to make (cctools)"

def errCctoolsMakeInstall : String := "failed to make (cctools install)"

def errSmokeTest : String := "failed to compile test with toolchain"

def errMinVersionKey : String := "KeyError: platform not in MIN_VERSION"

def macosMinDefault : String := "10.5"

/-- The MIN_VERSION dict of the script. -/
def MIN_VERSION (platform : String) : Option String :=
  if platform == platformIphoneos then some iosMinDefault
  else if platform == platformMacosx then some macosMinDefault
  else none

/-- Resolution of the minimum version: an explicitly given non-empty value
wins (the source tests falsiness, so an empty string also falls through),
otherwise the MIN_VERSION entry for the detected platform; none models the
KeyError raised when the platform has no entry. -/
def resolveMinVersion (minV : Option String) (platform : String) : Option String :=
  match minV with
  | some v => if v.isEmpty then MIN_VERSION platform else some v
  | none => MIN_VERSION platform

/-- The pipeline from the install-directory check up to and including the
ldid build, mirroring the source order: force check, rmtree when forcing,
mkdir of the install and tmp directories, extract, expand_sdk, get_sdk_info,
minimum-version resolution, mkdir of bin, wrapper compilation and
installation, and the ldid make (whose nonzero status raises inside the make
helper). -/
def preLibtapi (dirExists force : Bool) (minV : Option String) (o : Outcomes)
    (envIP0 : Bool) : OrchResult :=
  if dirExists && !force then { steps := [], envIP := envIP0, result := some errInstallExists }
  else
    let s1 := (if dirExists then [Step.rmtreeInstall] else []) ++
      [Step.mkdirInstall, Step.mkdirTmp, Step.extractSdk]
    match o.extractR with
    | some e => { steps := s1, envIP := envIP0, result := some e }
    | none =>
      let s2 := s1 ++ [Step.expandSdkS]
      match o.expandR with
      | some e => { steps := s2, envIP := envIP0, result := some e }
      | none =>
        let s3 := s2 ++ [Step.inspectSdk]
        match o.inspectR with
        | Except.error e => { steps := s3, envIP := envIP0, result := some e }
        | Except.ok platform =>
          match resolveMinVersion minV platform with
          | none => { steps := s3, envIP := envIP0, result := some errMinVersionKey }
          | some _ =>
            let s4 := s3 ++ [Step.mkdirBin, Step.compileWrap]
            match o.compileR with
            | some e => { steps := s4, envIP := envIP0, result := some e }
            | none =>
              let s5 := s4 ++ [Step.writeWrap, Step.buildLdid]
              match o.ldidR with
              | ProcOut.raised m => { steps := s5, envIP := envIP0, result := some m }
              | ProcOut.returned rc =>
                if rc != 0 then { steps := s5, envIP := envIP0, result := some errLdidMake }
                else { steps := s5, envIP := envIP0, result := none }

/-- The apple-libtapi stage: os.environ gets INSTALLPREFIX, then build.sh is
launched; when the launch raises, the del of INSTALLPREFIX never executes and
the variable stays set; when the child returns, INSTALLPREFIX is deleted
first and a nonzero status then raises. -/
def libtapiStage (po : ProcOut) (steps : List Step) (_envIP : Bool) : OrchResult :=
  let s1 := steps ++ [Step.buildLibtapi]
  match po with
  | ProcOut.raised m => { steps := s1, envIP := true, result := some m }
  | ProcOut.returned rc =>
    if rc != 0 then { steps := s1, envIP := false, result := some errLibtapiMake }
    else { steps := s1, envIP := false, result := none }

/-- The cctools stage: configure, make, make install, each stopping the
pipeline on a raised launch or a nonzero status. -/
def cctoolsStage (conf mk mkInst : ProcOut) (steps : List Step) (envIP : Bool) : OrchResult :=
  let s1 := steps ++ [Step.configureCctools]
  match conf with
  | ProcOut.raised m => { steps := s1, envIP := envIP, result := some m }
  | ProcOut.returned rc =>
    if rc != 0 then { steps := s1, envIP := envIP, result := some errConfigureCctools }
    else
      let s2 := s1 ++ [Step.makeCctools]
      match mk with
      | ProcOut.raised m => { steps := s2, envIP := envIP, result := some m }
      | ProcOut.returned rc2 =>
        if rc2 != 0 then { steps := s2, envIP := envIP, result := some errCctoolsMake }
        else
          let s3 := s2 ++ [Step.makeInstallCctools]
          match mkInst with
          | ProcOut.raised m => { steps := s3, envIP := envIP, result := some m }
          | ProcOut.returned rc3 =>
            if rc3 != 0 then { steps := s3, envIP := envIP, result := some errCctoolsMakeInstall }
            else { steps := s3, envIP := envIP, result := none }

/-- The final smoke test of the freshly installed wrapper. -/
def smokeStage (po : ProcOut) (steps : List Step) (envIP : Bool) : OrchResult :=
  let s1 := steps ++ [Step.smokeTest]
  match po with
  | ProcOut.raised m => { steps := s1, envIP := envIP, result := some m }
  | ProcOut.returned rc =>
    if rc != 0 then { steps := s1, envIP := envIP, result := some errSmokeTest }
    else { steps := s1, envIP := envIP, result := none }

/-- Sequencing of pipeline stages: a raised error skips every later stage. -/
def orchStep (r : OrchResult) (f : List Step → Bool → OrchResult) : OrchResult :=
  match r.result with
  | some _ => r
  | none => f r.steps r.envIP

/-- The whole create_apple_toolchain pipeline over the outcomes of its
external effects. -/
def create_apple_toolchain (dirExists force : Bool) (minV : Option String) (o : Outcomes)
    (envIP0 : Bool) : OrchResult :=
  orchStep (orchStep (orchStep (preLibtapi dirExists force minV o envIP0)
    (libtapiStage o.libtapiR)) (cctoolsStage o.configureR o.makeR o.makeInstR))
    (smokeStage o.smokeR)

/-- Does the apple-libtapi stage fail (either by a raising launch or by a
nonzero exit status)? -/
def stageFails (po : ProcOut) : Bool :=
  match po with
  | ProcOut.raised _ => true
  | ProcOut.returned rc => rc != 0

/-- Outcomes where every stage before apple-libtapi succeeds and launching
build.sh raises (for the counterexample to the unscoped env mutation). -/
def oRaiseW : Outcomes :=
  { extractR := none, expandR := none, inspectR := Except.ok platformIphoneos,
    compileR := none, ldidR := ProcOut.returned 0, libtapiR := ProcOut.raised errBoom,
    configureR := ProcOut.returned 0, makeR := ProcOut.returned 0,
    makeInstR := ProcOut.returned 0, smokeR := ProcOut.returned 0 }

/-- Outcomes where build.sh runs but exits with status 1. -/
def oRcW : Outcomes :=
  { extractR := none, expandR := none, inspectR := Except.ok platformIphoneos,
    compileR := none, ldidR := ProcOut.returned 0, libtapiR := ProcOut.returned 1,
    configureR := ProcOut.returned 0, makeR := ProcOut.returned 0,
    makeInstR := ProcOut.returned 0, smokeR := ProcOut.returned 0 }

/- Helper lemmas. -/

theorem set_append_self (xs l : List (Option String)) (v : Option String) :
    (xs ++ l).set xs.length v = xs ++ l.set 0 v := by
  induction xs with
  | nil => rfl
  | cons x xs ih =>
    change x :: ((xs ++ l).set xs.length v) = x :: (xs ++ l.set 0 v)
    rw [ih]

theorem setSeq_append_fill (vs : List String) (xs : List (Option String)) (m : Nat)
    (h : vs.length ≤ m) :
    setSeq (xs ++ List.replicate m none) xs.length vs =
      (xs ++ vs.map some) ++ List.replicate (m - vs.length) none := by
  induction vs generalizing xs m with
  | nil => simp [setSeq]
  | cons v vs ih =>
    cases m with
    | zero => simp at h
    | succ m =>
      have h1 : vs.length ≤ m := by simpa using h
      show setSeq ((xs ++ List.replicate (m + 1) none).set xs.length (some v))
        (xs.length + 1) vs = _
      rw [set_append_self]
      have e0 : (List.replicate (m + 1) (none : Option String)).set 0 (some v) =
          some v :: List.replicate m none := rfl
      rw [e0]
      have e1 : xs ++ some v :: List.replicate m none =
          (xs ++ [some v]) ++ List.replicate m none := by simp
      have e2 : xs.length + 1 = (xs ++ [some v]).length := by simp
      rw [e1, e2, ih (xs ++ [some v]) m h1]
      simp [Nat.succ_sub_succ]

/- Claim theorems. -/

/-- Claim C1: for every supported architecture, when neither override
environment variable is set, the argument vector the wrapper hands to execvp
consists of exactly the nine fixed entries — compiler, -target, the triple,
-isysroot, the default SDK path next to the wrapper's own directory, -arch,
the architecture, the combined version-min flag with the compile-time
default, and the fixed linker-version flag, in that order — followed by the
wrapper's own invocation arguments without its program name, verbatim and in
order. -/
theorem wrapper_default_vector (arch clang platform minVersion selfExe : String)
    (env : String → Option String) (argv : List String)
    (_harch : arch ∈ ARCHS)
    (hsys : env (strUpper platform ++ sysrootVarSuffix) = none)
    (hdep : env (strUpper platform ++ deployVarSuffix) = none) :
    exec_args (renderParams arch clang platform minVersion) env (dirOf selfExe) argv =
      [clang, targetFlag, arch ++ appleDarwinSuffix, isysrootFlag,
       dirOf selfExe ++ sdkRelPath, archFlag, arch,
       (mFlagHead ++ strLower platform ++ versionMinMid) ++ minVersion,
       linkerVersionFlag] ++ argv.drop 1 := by
  simp [exec_args, default_args, sdk_path, min_os_version, fromenv, renderParams, hsys, hdep]

theorem wrapper_default_vector_witness :
    archArm64 ∈ ARCHS ∧
    exec_args (renderParams archArm64 clangName platformIphoneos iosMinDefault) envNone
        (dirOf selfExeW) argvW =
      [clangName, targetFlag, archArm64 ++ appleDarwinSuffix, isysrootFlag,
       dirOf selfExeW ++ sdkRelPath, archFlag, archArm64,
       (mFlagHead ++ strLower platformIphoneos ++ versionMinMid) ++ iosMinDefault,
       linkerVersionFlag] ++ argvW.drop 1 :=
  ⟨by decide,
   wrapper_default_vector archArm64 clangName platformIphoneos iosMinDefault selfExeW
     envNone argvW (by decide) rfl rfl⟩

/-- Claim C2: when the PLATFORM_SDK_SYSROOT variable is set its value
replaces exactly the -isysroot argument value, and when
PLATFORM_DEPLOYMENT_TARGET is set it replaces only the part after the
version-min prefix; moreover the version-min prefix is the same under every
environment, set or unset. -/
theorem wrapper_env_override_effect (arch clang platform minVersion selfExe v d : String)
    (env : String → Option String) (argv : List String)
    (hsys : env (strUpper platform ++ sysrootVarSuffix) = some v)
    (hdep : env (strUpper platform ++ deployVarSuffix) = some d) :
    exec_args (renderParams arch clang platform minVersion) env (dirOf selfExe) argv =
      [clang, targetFlag, arch ++ appleDarwinSuffix, isysrootFlag, v, archFlag, arch,
       (mFlagHead ++ strLower platform ++ versionMinMid) ++ d,
       linkerVersionFlag] ++ argv.drop 1 ∧
    (∀ env2 : String → Option String,
      min_os_version (renderParams arch clang platform minVersion) env2 =
        (mFlagHead ++ strLower platform ++ versionMinMid) ++
          fromenv env2 (strUpper platform ++ deployVarSuffix) minVersion) := by
  constructor
  · simp [exec_args, default_args, sdk_path, min_os_version, fromenv, renderParams, hsys, hdep]
  · intro env2
    simp [min_os_version, renderParams]

theorem wrapper_env_override_effect_witness :
    envBothW (strUpper platformIphoneos ++ sysrootVarSuffix) = some sysValW ∧
    exec_args (renderParams archArm64 clangName platformIphoneos iosMinDefault) envBothW
        (dirOf selfExeW) argvW =
      [clangName, targetFlag, archArm64 ++ appleDarwinSuffix, isysrootFlag, sysValW,
       archFlag, archArm64,
       (mFlagHead ++ strLower platformIphoneos ++ versionMinMid) ++ depValW,
       linkerVersionFlag] ++ argvW.drop 1 :=
  ⟨by decide,
   (wrapper_env_override_effect archArm64 clangName platformIphoneos iosMinDefault selfExeW
     sysValW depValW envBothW argvW (by decide) (by decide)).1⟩

/-- Claim C3 (code bug): when execvp fails, the wrapper does print the
diagnostic carrying errno and strerror(errno), but main then reaches its
closing brace without a return statement, so the process exits with status 0
— a success status, not the failing status the claim requires.  This
evaluates the wrapper at the failing input: execvp fails with errno 2. -/
theorem wrapper_exec_failure_exit_zero :
    wrapperMain pW envNone (some selfExeW) true (ExecOutcome.failed 2) strerrorW argvW =
      MainResult.exited 0
        ("error: compiler invoaction failed (2 - No such file or directory)\n") := by
  decide

/-- Claim C10: for argc at least 1 the args array is allocated with exactly
9 + (argc - 1) + 1 pointer slots, and since calloc zero-initialises it and
the two copy loops fill exactly the slots of the nine fixed arguments and the
argc - 1 caller arguments, the array passed to execvp is the exec argument
list followed by a single NULL terminator. -/
theorem wrapper_args_null_terminated (p : WrapperParams) (env : String → Option String)
    (compilerPath : String) (argv : List String) (h : 1 ≤ argv.length) :
    callocSlots argv.length = 9 + (argv.length - 1) + 1 ∧
    wrapperExecArr p env compilerPath argv =
      (exec_args p env compilerPath argv).map some ++ [none] := by
  constructor
  · unfold callocSlots
    omega
  · unfold wrapperExecArr callocSlots
    have h9 : (default_args p env compilerPath).length = 9 := rfl
    have e1 : List.replicate (argv.length + 9) (none : Option String) =
        ([] : List (Option String)) ++ List.replicate (argv.length + 9) none := rfl
    have e2 : (0 : Nat) = ([] : List (Option String)).length := rfl
    rw [e1, e2, setSeq_append_fill (default_args p env compilerPath) [] (argv.length + 9)
      (by rw [h9]; omega)]
    rw [h9]
    have e3 : argv.length + 9 - 9 = argv.length := by omega
    rw [e3]
    have e4 : ([] : List (Option String)) ++ (default_args p env compilerPath).map some =
        (default_args p env compilerPath).map some := by simp
    rw [e4]
    have e5 : (9 : Nat) = ((default_args p env compilerPath).map some).length := by
      rw [List.length_map, h9]
    rw [e5, setSeq_append_fill (argv.drop 1) ((default_args p env compilerPath).map some)
      argv.length (by rw [List.length_drop]; omega)]
    rw [List.length_drop]
    have e6 : argv.length - (argv.length - 1) = 1 := by omega
    rw [e6]
    unfold exec_args
    rw [List.map_append]
    rfl

theorem wrapper_args_null_terminated_witness :
    1 ≤ argvW.length ∧
    (callocSlots argvW.length = 9 + (argvW.length - 1) + 1 ∧
     wrapperExecArr pW envNone (dirOf selfExeW) argvW =
       (exec_args pW envNone (dirOf selfExeW) argvW).map some ++ [none]) :=
  ⟨by decide, wrapper_args_null_terminated pW envNone (dirOf selfExeW) argvW (by decide)⟩

/-- Claim C5: when the installation directory already exists and force is not
set, the orchestrator raises before performing any effect at all — no
removal, extraction or build step is started, so the pre-existing directory
is untouched. -/
theorem install_dir_guard_stops_everything (minV : Option String) (o : Outcomes)
    (envIP0 : Bool) :
    (create_apple_toolchain true false minV o envIP0).steps = [] ∧
    (create_apple_toolchain true false minV o envIP0).result = some errInstallExists := by
  constructor <;> rfl

/-- Claim C8 counterexample: with capture not requested for either stream,
run returns Python None for that stream (communicate's value for a non-PIPE
stream), not an empty byte buffer as the claim states. -/
theorem run_uncaptured_not_empty_bytes :
    (run StdinArg.falseA false false childW).2.1 ≠ some [] ∧
    (run StdinArg.falseA false false childW).2.2 ≠ some [] := by
  decide

/-- Claim C8 (amended): run returns the triple of the child's exit status
uninterpreted, the captured stdout bytes when stdout capture was requested
and None otherwise, and the captured stderr bytes when stderr capture was
requested and None otherwise. -/
theorem run_triple_shape (a : StdinArg) (po pe : Bool) (child : ChildBehavior) :
    (run a po pe child).1 = child.rc ∧
    (po = false → (run a po pe child).2.1 = none) ∧
    (po = true → (run a po pe child).2.1 = some child.outData) ∧
    (pe = false → (run a po pe child).2.2 = none) ∧
    (pe = true → (run a po pe child).2.2 = some child.errData) := by
  cases po <;> cases pe <;>
    simp [run, communicateStream, popenCaptured]

theorem run_triple_shape_witness :
    (run StdinArg.falseA false true childW).2.1 = none ∧
    (run StdinArg.falseA false true childW).2.2 = some childW.errData :=
  ⟨(run_triple_shape StdinArg.falseA false true childW).2.1 rfl,
   (run_triple_shape StdinArg.falseA false true childW).2.2.2.2 rfl⟩

theorem orchStep_of_some (r : OrchResult) (f : List Step → Bool → OrchResult)
    (h : r.result.isSome = true) : orchStep r f = r := by
  unfold orchStep
  cases hr : r.result with
  | some e => rfl
  | none => rw [hr] at h; simp at h

theorem preLibtapi_steps_early (dirExists force : Bool) (minV : Option String)
    (o : Outcomes) (envIP0 : Bool) :
    Step.buildLibtapi ∉ (preLibtapi dirExists force minV o envIP0).steps ∧
    Step.configureCctools ∉ (preLibtapi dirExists force minV o envIP0).steps := by
  unfold preLibtapi
  cases o with
  | mk er xr ir cr lr tr cfr mr mir sr =>
    cases dirExists <;> cases force <;>
      cases er <;> try cases xr
    all_goals try cases ir
    all_goals simp only []
    all_goals try split
    all_goals try cases cr
    all_goals try cases lr
    all_goals try split
    all_goals simp_all [List.mem_append]
    all_goals try split
    all_goals simp_all

theorem orchStep_of_none (r : OrchResult) (f : List Step → Bool → OrchResult)
    (h : r.result = none) : orchStep r f = f r.steps r.envIP := by
  unfold orchStep
  rw [h]

/-- Claim C4 counterexample: with every stage before apple-libtapi
succeeding and the build.sh launch raising, the pipeline does stop before
cctools, but INSTALLPREFIX is still set in os.environ when the failure
propagates — the del statement after the launch never executes. -/
theorem libtapi_raise_leaves_env_set :
    (create_apple_toolchain false false none oRaiseW false).result = some errBoom ∧
    Step.configureCctools ∉ (create_apple_toolchain false false none oRaiseW false).steps ∧
    (create_apple_toolchain false false none oRaiseW false).envIP = true := by
  decide

/-- Claim C4 (amended): whenever the apple-libtapi stage fails, the pipeline
stops before the cctools stage and the run ends in a raised error; if the
failure is a nonzero exit status of build.sh then INSTALLPREFIX has been
deleted by the time the failure propagates, but if launching build.sh itself
raises then INSTALLPREFIX remains set. -/
theorem libtapi_failure_stops_pipeline (dirExists force : Bool) (minV : Option String)
    (o : Outcomes) (envIP0 : Bool) (hfail : stageFails o.libtapiR = true) :
    Step.configureCctools ∉ (create_apple_toolchain dirExists force minV o envIP0).steps ∧
    (create_apple_toolchain dirExists force minV o envIP0).result.isSome = true ∧
    (∀ rc : Int, o.libtapiR = ProcOut.returned rc →
      Step.buildLibtapi ∈ (create_apple_toolchain dirExists force minV o envIP0).steps →
      (create_apple_toolchain dirExists force minV o envIP0).envIP = false) ∧
    (∀ m : String, o.libtapiR = ProcOut.raised m →
      Step.buildLibtapi ∈ (create_apple_toolchain dirExists force minV o envIP0).steps →
      (create_apple_toolchain dirExists force minV o envIP0).envIP = true) := by
  have hpre := preLibtapi_steps_early dirExists force minV o envIP0
  unfold create_apple_toolchain
  set pre := preLibtapi dirExists force minV o envIP0 with hpredef
  cases hr : pre.result with
  | some e =>
    have hsome : pre.result.isSome = true := by rw [hr]; rfl
    rw [orchStep_of_some pre (libtapiStage o.libtapiR) hsome,
      orchStep_of_some pre (cctoolsStage o.configureR o.makeR o.makeInstR) hsome,
      orchStep_of_some pre (smokeStage o.smokeR) hsome]
    refine ⟨hpre.2, by rw [hr]; rfl, ?_, ?_⟩
    · intro rc _ hmem
      exact absurd hmem hpre.1
    · intro m _ hmem
      exact absurd hmem hpre.1
  | none =>
    rw [orchStep_of_none pre (libtapiStage o.libtapiR) hr]
    cases hlr : o.libtapiR with
    | raised m =>
      have e2 : libtapiStage (ProcOut.raised m) pre.steps pre.envIP =
          { steps := pre.steps ++ [Step.buildLibtapi], envIP := true, result := some m } := rfl
      rw [e2]
      rw [orchStep_of_some _ _ (by rfl), orchStep_of_some _ _ (by rfl)]
      refine ⟨?_, rfl, ?_, ?_⟩
      · simp only [List.mem_append]
        intro hmem
        rcases hmem with hmem | hmem
        · exact hpre.2 hmem
        · simp at hmem
      · intro rc hrc
        simp at hrc
      · intro m2 _ _
        rfl
    | returned rc =>
      rw [hlr] at hfail
      simp [stageFails] at hfail
      have e2 : libtapiStage (ProcOut.returned rc) pre.steps pre.envIP =
          { steps := pre.steps ++ [Step.buildLibtapi], envIP := false,
            result := some errLibtapiMake } := by
        simp [libtapiStage, hfail]
      rw [e2]
      rw [orchStep_of_some _ _ (by rfl), orchStep_of_some _ _ (by rfl)]
      refine ⟨?_, rfl, ?_, ?_⟩
      · simp only [List.mem_append]
        intro hmem
        rcases hmem with hmem | hmem
        · exact hpre.2 hmem
        · simp at hmem
      · intro rc2 _ _
        rfl
      · intro m2 hm2
        simp at hm2

theorem libtapi_failure_stops_pipeline_witness :
    stageFails oRcW.libtapiR = true ∧
    Step.configureCctools ∉ (create_apple_toolchain false false none oRcW false).steps ∧
    (create_apple_toolchain false false none oRcW false).result.isSome = true ∧
    (create_apple_toolchain false false none oRcW false).envIP = false :=
  ⟨by decide,
   (libtapi_failure_stops_pipeline false false none oRcW false (by decide)).1,
   (libtapi_failure_stops_pipeline false false none oRcW false (by decide)).2.1,
   (libtapi_failure_stops_pipeline false false none oRcW false (by decide)).2.2.1 1 rfl
     (by decide)⟩

theorem atEntry_dirs_sub (d : String) (c : Bool) (s : DirState) :
    s.dirs ⊆ (atEntry d c s).dirs := by
  unfold atEntry
  split
  · exact fun x hx => List.mem_cons_of_mem d hx
  · exact fun x hx => hx

theorem atCtx_dirs_mono (d : String) (c : Bool) (body : DirState → DirState × Option String)
    (hmono : ∀ t : DirState, t.dirs ⊆ (body t).1.dirs) (s : DirState) :
    s.dirs ⊆ (atCtx d c body s).1.dirs := by
  unfold atCtx
  split
  · split
    · exact fun x hx => hmono (atEntry d c s) (atEntry_dirs_sub d c s hx)
    · exact fun x hx => hmono (atEntry d c s) (atEntry_dirs_sub d c s hx)
  · split
    · exact fun x hx => List.mem_cons_of_mem d hx
    · exact fun x hx => hx

theorem atCtx_cwd_restored (d : String) (c : Bool)
    (body : DirState → DirState × Option String) (s : DirState)
    (hcwd : s.cwd ∈ s.dirs) (hmono : ∀ t : DirState, t.dirs ⊆ (body t).1.dirs) :
    (atCtx d c body s).1.cwd = s.cwd ∧
    (d ∈ (atEntry d c s).dirs → (atCtx d c body s).2 = (body (atEntry d c s)).2) := by
  unfold atCtx
  split
  case isTrue hd =>
    split
    case isTrue h3 =>
      exact ⟨rfl, fun _ => rfl⟩
    case isFalse h3 =>
      exact absurd (hmono (atEntry d c s) (atEntry_dirs_sub d c s hcwd)) h3
  case isFalse hd =>
    constructor
    · split <;> rfl
    · intro hmem
      exact absurd hmem hd

/-- Claim C9: whether the enclosed body completes normally or raises, the
scope restores the working directory recorded on entry before the body's
result or error propagates (the propagated value is exactly the body's), and
two nested scopes obey the stack discipline — the outer scope still restores
the outermost recorded directory.  The body is assumed not to delete
existing directories, which no use in the script does. -/
theorem at_restores_cwd (d1 d2 : String) (c1 c2 : Bool)
    (body : DirState → DirState × Option String) (s : DirState)
    (hcwd : s.cwd ∈ s.dirs) (hmono : ∀ t : DirState, t.dirs ⊆ (body t).1.dirs) :
    (atCtx d1 c1 body s).1.cwd = s.cwd ∧
    (d1 ∈ (atEntry d1 c1 s).dirs → (atCtx d1 c1 body s).2 = (body (atEntry d1 c1 s)).2) ∧
    (atCtx d1 c1 (fun t => atCtx d2 c2 body t) s).1.cwd = s.cwd := by
  refine ⟨(atCtx_cwd_restored d1 c1 body s hcwd hmono).1,
    (atCtx_cwd_restored d1 c1 body s hcwd hmono).2, ?_⟩
  exact (atCtx_cwd_restored d1 c1 (fun t => atCtx d2 c2 body t) s hcwd
    (fun t => atCtx_dirs_mono d2 c2 body hmono t)).1

theorem at_restores_cwd_witness :
    (atCtx subDirAW false bodyW dirStateW).1.cwd = rootDirW ∧
    (atCtx subDirAW false (fun t => atCtx subDirBW false bodyW t) dirStateW).1.cwd = rootDirW :=
  ⟨(at_restores_cwd subDirAW subDirBW false false bodyW dirStateW (by decide)
      (fun t => List.Subset.refl t.dirs)).1,
   (at_restores_cwd subDirAW subDirBW false false bodyW dirStateW (by decide)
      (fun t => List.Subset.refl t.dirs)).2.2⟩

theorem entryNames_append (es fs : Entries) :
    entryNames (es ++ fs) = entryNames es ++ entryNames fs := by
  unfold entryNames
  exact List.map_append (fun e => e.1) es fs

theorem entryNames_replaceEntry (es : Entries) (n : String) (t : FSTree) :
    entryNames (replaceEntry es n t) = entryNames es := by
  unfold entryNames replaceEntry
  rw [List.map_map]
  apply List.map_congr_left
  intro e _
  simp only [Function.comp_apply]
  split <;> rfl

theorem mem_entryNames_of_lookup (es : Entries) (n : String) (t : FSTree)
    (h : lookupEntry es n = some t) : n ∈ entryNames es := by
  unfold lookupEntry at h
  cases hf : es.find? (fun e => e.1 == n) with
  | none =>
    rw [hf] at h
    exact absurd h (by simp)
  | some e =>
    have hp := List.find?_some hf
    have hm : e ∈ es := List.mem_of_find?_eq_some hf
    have he : e.1 = n := eq_of_beq hp
    rw [← he]
    exact List.mem_map_of_mem (fun x => x.1) hm

theorem mem_entryNames_erase (es : Entries) (n m : String) (hm : m ∈ entryNames es)
    (hne : m ≠ n) : m ∈ entryNames (eraseEntry es n) := by
  unfold entryNames eraseEntry
  unfold entryNames at hm
  rcases List.mem_map.1 hm with ⟨e, he, hfst⟩
  refine List.mem_map.2 ⟨e, List.mem_filter.2 ⟨he, ?_⟩, hfst⟩
  have hne2 : e.1 ≠ n := by
    rw [hfst]
    exact hne
  simp [hne2]

theorem moveOne_names (es es1 : Entries) (subN n : String)
    (h : moveOne es subN n = Except.ok es1) :
    (∀ m, m ∈ entryNames es → m ∈ entryNames es1) ∧ n ∈ entryNames es1 := by
  unfold moveOne at h
  split at h
  case h_2 => simp at h
  case h_1 subEs h1 =>
    split at h
    case h_2 => simp at h
    case h_1 it h2 =>
      split at h
      · simp at h
      · split at h
        case h_1 dEs h4 =>
          split at h
          · simp at h
          · have he : es1 = replaceEntry
                (replaceEntry es subN (FSTree.dir (eraseEntry subEs n))) n
                (FSTree.dir (dEs ++ [(n, it)])) := (Except.ok.inj h).symm
            rw [he, entryNames_replaceEntry, entryNames_replaceEntry]
            exact ⟨fun m hm => hm, mem_entryNames_of_lookup es n _ h4⟩
        case h_2 h4 =>
          split at h
          case h_1 =>
            have he : es1 = replaceEntry
                (replaceEntry es subN (FSTree.dir (eraseEntry subEs n))) n
                FSTree.file := (Except.ok.inj h).symm
            rw [he, entryNames_replaceEntry, entryNames_replaceEntry]
            exact ⟨fun m hm => hm, mem_entryNames_of_lookup es n _ h4⟩
          case h_2 => simp at h
        case h_3 h4 =>
          have he : es1 = replaceEntry es subN (FSTree.dir (eraseEntry subEs n)) ++
              [(n, it)] := (Except.ok.inj h).symm
          rw [he, entryNames_append, entryNames_replaceEntry]
          constructor
          · intro m hm
            exact List.mem_append_left _ hm
          · refine List.mem_append_right _ ?_
            simp [entryNames]

theorem moveLoop_names (subN : String) (ns : List String) (es es1 : Entries)
    (h : moveLoop subN ns es = (es1, none)) :
    (∀ m, m ∈ entryNames es → m ∈ entryNames es1) ∧
    (∀ n, n ∈ ns → n ∈ entryNames es1) := by
  induction ns generalizing es with
  | nil =>
    unfold moveLoop at h
    have he : es = es1 := congrArg Prod.fst h
    constructor
    · intro m hm
      rw [← he]
      exact hm
    · intro n hn
      simp at hn
  | cons n ns ih =>
    unfold moveLoop at h
    split at h
    case h_1 e hmv => simp at h
    case h_2 es2 hmv =>
      obtain ⟨g1, g2⟩ := moveOne_names es es2 subN n hmv
      obtain ⟨k1, k2⟩ := ih es2 h
      refine ⟨fun m hm => k1 m (g1 m hm), ?_⟩
      intro x hx
      rcases List.mem_cons.1 hx with hx | hx
      · rw [hx]
        exact k1 n g2
      · exact k2 x hx

theorem rmdirSub_ok (es es1 : Entries) (subN : String)
    (h : rmdirSub es subN = (es1, none)) : es1 = eraseEntry es subN := by
  unfold rmdirSub at h
  split at h
  · exact (congrArg Prod.fst h).symm
  · simp at h

theorem contains_of_mem_names (es : Entries) (m : String) (hm : m ∈ entryNames es) :
    ((entryNames es).contains m) = true :=
  List.elem_eq_true_of_mem hm

theorem expand_sdk_ok_hasSettings (sdk : String) (es es1 : Entries)
    (h : expand_sdk sdk es = (es1, none)) : hasSettingsName es1 = true := by
  unfold expand_sdk at h
  by_cases hset : hasSettingsName es = true
  · rw [if_pos hset] at h
    have he : es = es1 := congrArg Prod.fst h
    rw [← he]
    exact hset
  · rw [if_neg hset] at h
    cases hc : sdkCandidates es with
    | nil =>
      simp only [hc] at h
      simp at h
    | cons e rest =>
      cases rest with
      | nil =>
        simp only [hc] at h
        have hce : e ∈ sdkCandidates es := by
          rw [hc]
          exact List.mem_singleton.2 rfl
        have hcf := List.mem_filter.1 hce
        have hpred := hcf.2
        have hsub : hasSettingsName (childrenOf e.2) = true := by
          simp only [Bool.and_eq_true] at hpred
          exact hpred.2
        have hsetsub : settingsName ∈ entryNames (childrenOf e.2) := by
          unfold hasSettingsName at hsub
          exact List.mem_of_elem_eq_true hsub
        unfold moveUp at h
        split at h
        next es2 m hml => simp at h
        next es2 hml =>
          have he1 : es1 = eraseEntry es2 e.1 := rmdirSub_ok es2 es1 e.1 h
          have hmem2 : settingsName ∈ entryNames es2 :=
            (moveLoop_names e.1 (entryNames (childrenOf e.2)) es es2 hml).2
              settingsName hsetsub
          have hnotTop : ¬ settingsName ∈ entryNames es := by
            intro hmem
            exact hset (contains_of_mem_names es settingsName hmem)
          have hne : settingsName ≠ e.1 := by
            intro heq
            apply hnotTop
            rw [heq]
            exact List.mem_map_of_mem (fun x => x.1) hcf.1
          have hfin : settingsName ∈ entryNames es1 := by
            rw [he1]
            exact mem_entryNames_erase es2 e.1 settingsName hmem2 hne
          exact contains_of_mem_names es1 settingsName hfin
      | cons b rest2 =>
        simp only [hc] at h
        simp at h

/-- Claim C6: expand_sdk is idempotent — on a tree whose top level already
lists the settings file it changes nothing and raises nothing, and therefore
running it twice from any starting tree (the second run only when the first
did not raise) gives exactly the result of running it once. -/
theorem expand_sdk_idempotent (sdk : String) (es : Entries) :
    (hasSettingsName es = true → expand_sdk sdk es = (es, none)) ∧
    expand_twice sdk es = expand_sdk sdk es := by
  constructor
  · intro hset
    unfold expand_sdk
    rw [if_pos hset]
  · unfold expand_twice
    cases hx : expand_sdk sdk es with
    | mk es1 r =>
      cases r with
      | some e => rfl
      | none =>
        have hs := expand_sdk_ok_hasSettings sdk es es1 hx
        show expand_sdk sdk es1 = (es1, none)
        unfold expand_sdk
        rw [if_pos hs]

theorem expand_sdk_idempotent_witness :
    hasSettingsName settingsEntryW = true ∧
    expand_sdk sdkPathW settingsEntryW = (settingsEntryW, none) :=
  ⟨by decide, (expand_sdk_idempotent sdkPathW settingsEntryW).1 (by decide)⟩

/-- Claim C7: on a tree without a top-level settings file, expand_sdk raises
the not-found error when no immediate subdirectory lists the settings file
and the ambiguity error when two or more do, and in both cases it returns
the tree exactly as it was — no move or removal happens before the error. -/
theorem expand_sdk_guard_errors (sdk : String) (es : Entries)
    (hno : hasSettingsName es = false) :
    ((sdkCandidates es).length = 0 → expand_sdk sdk es = (es, some (errNotFound sdk))) ∧
    (2 ≤ (sdkCandidates es).length → expand_sdk sdk es = (es, some (errAmbiguous sdk))) := by
  unfold expand_sdk
  rw [if_neg (by rw [hno]; exact Bool.false_ne_true)]
  constructor
  · intro h0
    cases hc : sdkCandidates es with
    | nil => rfl
    | cons a t =>
      rw [hc] at h0
      simp at h0
  · intro h2
    cases hc : sdkCandidates es with
    | nil =>
      rw [hc] at h2
      simp at h2
    | cons a t =>
      cases t with
      | nil =>
        rw [hc] at h2
        simp at h2
      | cons b t2 => rfl

theorem expand_sdk_guard_errors_witness :
    (hasSettingsName esZeroW = false ∧ (sdkCandidates esZeroW).length = 0 ∧
      expand_sdk sdkPathW esZeroW = (esZeroW, some (errNotFound sdkPathW))) ∧
    (hasSettingsName esTwoW = false ∧ 2 ≤ (sdkCandidates esTwoW).length ∧
      expand_sdk sdkPathW esTwoW = (esTwoW, some (errAmbiguous sdkPathW))) :=
  ⟨⟨by decide, by decide,
    (expand_sdk_guard_errors sdkPathW esZeroW (by decide)).1 (by decide)⟩,
   ⟨by decide, by decide,
    (expand_sdk_guard_errors sdkPathW esTwoW (by decide)).2 (by decide)⟩⟩

end StandaloneToolchains
